import Mathlib

/-!
Shallow embedding of the sisyphus tool-execution core
(`src/sisyphus/core/tool.py`, `src/sisyphus/core/tool_call.py`,
`src/sisyphus/registry/tool_registry.py`,
`src/sisyphus/execution/tool_executor.py`,
`src/sisyphus/execution/tool_orchestrator.py`) and proofs of the
spec claims about it.

Python dictionaries are modelled as association lists (first match wins
on lookup, in-place update on insert of an existing key, append
otherwise).  Wall-clock time is modelled abstractly: a capability body
carries a `duration`; dispatch times out exactly when the duration
exceeds the effective timeout, and the elapsed time reported on
completion is the body's duration (the executor's own validation and
normalization cost is treated as zero).  Python exceptions are
modelled by the explicit `PyExc` type and exception propagation by
`Except PyExc` results.
-/

namespace Sisyphus

/-- JSON-like Python values appearing as tool arguments, payloads and
metadata (`Any` in the source).  Composite values (lists/dicts) are not
needed by any claim and are omitted from the value universe. -/
inductive JValue where
  | null
  | b (x : Bool)
  | i (n : Int)
  | f (q : Rat)
  | s (txt : String)
deriving DecidableEq

/-- Python dict lookup: first binding of the key, if any. -/
def lookupKey {α : Type} : List (String × α) → String → Option α
  | [], _ => none
  | (k, v) :: rest, key => if k = key then some v else lookupKey rest key

/-- Python dict membership test (`key in d`). -/
def hasKey {α : Type} (m : List (String × α)) (key : String) : Bool :=
  (lookupKey m key).isSome

/-- Python dict update `d[key] = v`: replace the first binding of the
key in place, or append a new binding. -/
def setKey {α : Type} : List (String × α) → String → α → List (String × α)
  | [], key, v => [(key, v)]
  | (k, w) :: rest, key, v =>
    if k = key then (key, v) :: rest else (k, w) :: setKey rest key v

/-- JSON Schema primitive type names usable in a property schema. -/
inductive JType where
  | stringT
  | integerT
  | numberT
  | booleanT
  | nullT
  | arrayT
  | objectT
deriving DecidableEq

/-- Modelled from the jsonschema library: whether a value conforms to a
JSON Schema `type` keyword.  `number` accepts integers; booleans are
not integers (jsonschema's type checker excludes `bool` from
`integer`/`number` even though Python's `bool` subclasses `int`). -/
def typeMatches : JType → JValue → Bool
  | .stringT, .s _ => true
  | .integerT, .i _ => true
  | .numberT, .i _ => true
  | .numberT, .f _ => true
  | .booleanT, .b _ => true
  | .nullT, .null => true
  | _, _ => false

/-- A tool's `parameters` JSON Schema, in the shape the source accepts:
`{"type": "object", "properties": {...}, "required": [...]}` with each
property constrained by a `type` keyword.  The `type: object` and
`properties` fields are validated structurally at `ToolDefinition`
construction (`ToolDefinition.validate_parameters_schema`), so the
embedding carries them already destructured. -/
structure ParamSchema where
  properties : List (String × JType)
  required : List String
deriving DecidableEq

/-- A jsonschema validation failure: the path into the instance
(empty for object-level failures such as a missing required property)
and the failure message. -/
structure SchemaErr where
  path : List String
  message : String
deriving DecidableEq

/-- Rendering of a value inside a jsonschema error message. -/
def renderJValue : JValue → String
  | .null => "None"
  | .b true => "True"
  | .b false => "False"
  | .i n => toString n
  | .f q => toString q
  | .s txt => "'" ++ txt ++ "'"

/-- Name of a JSON Schema type in error messages. -/
def typeName : JType → String
  | .stringT => "string"
  | .integerT => "integer"
  | .numberT => "number"
  | .booleanT => "boolean"
  | .nullT => "null"
  | .arrayT => "array"
  | .objectT => "object"

/-- Modelled from the jsonschema library: the `required` keyword check.
Reports the first required property missing from the instance, with an
empty path (the error is at the object level). -/
def checkRequired (args : List (String × JValue)) : List String → Option SchemaErr
  | [] => none
  | r :: rest =>
    if hasKey args r then checkRequired args rest
    else some ⟨[], "'" ++ r ++ "' is a required property"⟩

/-- Modelled from the jsonschema library: the `properties` keyword
check against each property's `type` keyword.  Reports the first
argument whose declared property type it fails, with the property name
as the path; arguments without a declared property are unconstrained. -/
def checkTypes (props : List (String × JType)) : List (String × JValue) → Option SchemaErr
  | [] => none
  | (k, v) :: rest =>
    match lookupKey props k with
    | some t =>
      if typeMatches t v then checkTypes props rest
      else some ⟨[k], renderJValue v ++ " is not of type '" ++ typeName t ++ "'"⟩
    | none => checkTypes props rest

/-- Modelled from the jsonschema library: `validate(instance, schema)`
restricted to the schema fragment above.  Returns the first violation
(required-field check, then property-type check) or `none` when the
instance conforms. -/
def jsonschemaCheck (schema : ParamSchema) (args : List (String × JValue)) :
    Option SchemaErr :=
  match checkRequired args schema.required with
  | some e => some e
  | none => checkTypes schema.properties args

/-- `ToolStatus` from `core/tool.py`. -/
inductive ToolStatus where
  | success
  | error
  | timeout
  | cancelled
deriving DecidableEq

/-- `ToolResult` from `core/tool.py`: status, data payload, error
message and metadata dict. -/
structure ToolResult where
  status : ToolStatus
  data : JValue := .null
  errorMessage : Option String := none
  metadata : List (String × JValue) := []
deriving DecidableEq

/-- `ToolResult.success(data, **metadata)`. -/
def ToolResult.mkSuccess (data : JValue) (metadata : List (String × JValue)) :
    ToolResult :=
  { status := .success, data := data, errorMessage := none, metadata := metadata }

/-- `ToolResult.error(error, **metadata)`. -/
def ToolResult.mkError (error : String) (metadata : List (String × JValue)) :
    ToolResult :=
  { status := .error, data := .null, errorMessage := some error, metadata := metadata }

/-- `ToolResult.is_success`. -/
def ToolResult.isSuccess (r : ToolResult) : Bool :=
  r.status = .success

/-- The Python exceptions crossing component boundaries in the core.
The first five are `ToolExecutionError` and its subclasses from
`core/tool.py` (each carries a message and an optional tool name);
`otherExc` is any other exception, carried as its type name and text. -/
inductive PyExc where
  | toolValidationErr (msg : String) (toolName : Option String)
  | toolTimeoutErr (msg : String) (toolName : Option String)
  | toolNotFoundErr (msg : String) (toolName : Option String)
  | toolRegistrationErr (msg : String) (toolName : Option String)
  | toolExecutionErr (msg : String) (toolName : Option String)
  | otherExc (typeNm : String) (text : String)
deriving DecidableEq

/-- `type(e).__name__` for a modelled exception. -/
def excTypeName : PyExc → String
  | .toolValidationErr _ _ => "ToolValidationError"
  | .toolTimeoutErr _ _ => "ToolTimeoutError"
  | .toolNotFoundErr _ _ => "ToolNotFoundError"
  | .toolRegistrationErr _ _ => "ToolRegistrationError"
  | .toolExecutionErr _ _ => "ToolExecutionError"
  | .otherExc typeNm _ => typeNm

/-- `str(e)` for a modelled exception. -/
def excText : PyExc → String
  | .toolValidationErr msg _ => msg
  | .toolTimeoutErr msg _ => msg
  | .toolNotFoundErr msg _ => msg
  | .toolRegistrationErr msg _ => msg
  | .toolExecutionErr msg _ => msg
  | .otherExc _ text => text

/-- Whether an exception is `ToolExecutionError` or one of its
subclasses (`isinstance(e, ToolExecutionError)`): exactly these are
re-raised by the executor's dispatch instead of being converted to an
Error outcome. -/
def isToolExecutionFamily : PyExc → Bool
  | .otherExc _ _ => false
  | _ => true

/-- A registered capability as the executor sees it: the contract
surface exposed by a tool instance (`Tool`/`AsyncTool` protocol and the
`_SyncToolWrapper`/`_AsyncToolWrapper` classes expose `name`,
`description`, `parameters`).  `isAsync` records which protocol the
instance implements (`ToolExecutor._is_async_tool`); `tag` stands for
the identity of the underlying callable/instance, distinguishing two
registrations that share a contract. -/
structure RegTool where
  name : String
  description : String
  parameters : ParamSchema
  isAsync : Bool
  tag : String
deriving DecidableEq

/-- What one run of a capability body does: it occupies `duration`
seconds of wall-clock time and then either returns a value or raises
an exception. -/
inductive BodyOutcome where
  | returns (r : ToolResult ⊕ JValue)
  | raises (e : PyExc)
deriving DecidableEq

/-- One run of a capability body.  `ToolResult ⊕ JValue` in
`BodyOutcome.returns` mirrors the executor's
`isinstance(result, ToolResult)` branch: `inl` is a value already in
`ToolResult` shape, `inr` a bare value. -/
structure BodyRun where
  duration : Rat
  outcome : BodyOutcome
deriving DecidableEq

/-- A capability body: given the call's keyword arguments, how the run
goes. -/
def Body : Type := List (String × JValue) → BodyRun

/-- The `ToolExecutor` construction parameters
(`default_timeout=60.0, max_workers=4`). -/
structure ExecutorConfig where
  defaultTimeout : Rat := 60
  maxWorkers : Nat := 4
deriving DecidableEq

/-- The effective timeout of one `execute` call, as both
`ToolExecutor._execute_sync` and `ToolExecutor.execute_async` compute
it: `timeout if timeout is not None else self.default_timeout`. -/
def effectiveTimeout (cfg : ExecutorConfig) (timeout : Option Rat) : Rat :=
  match timeout with
  | some t => t
  | none => cfg.defaultTimeout

/-- `ToolExecutor._validate_parameters`: run the jsonschema check on
the arguments against the tool's schema, converting a jsonschema
`ValidationError` into a `ToolValidationError` whose message names the
tool and the failing path (`"root"` when the error path is empty). -/
def validateParameters (tool : RegTool) (params : List (String × JValue)) :
    Option PyExc :=
  match jsonschemaCheck tool.parameters params with
  | some e =>
    some (.toolValidationErr
      ("Parameter validation failed for tool '" ++ tool.name ++ "' at "
        ++ (match e.path with
            | [] => "root"
            | ps => String.intercalate " -> " ps)
        ++ ": " ++ e.message)
      (some tool.name))
  | none => none

/-- The timeout message both dispatch paths raise. -/
def timeoutMsg (toolNm : String) (eff elapsed : Rat) : String :=
  "Tool '" ++ toolNm ++ "' execution exceeded timeout of "
    ++ toString eff ++ "s (ran for " ++ toString elapsed ++ "s)"

/-- `ToolExecutor._execute_sync`: validate (unless disabled), submit
the body to the worker pool and wait for it up to the effective
timeout, then normalize the result.  A `ToolValidationError` from
validation, a `ToolTimeoutError` raised on deadline expiry, and any
`ToolExecutionError`-family exception raised by the body are re-raised
to the caller; any other exception from the body becomes an
Error-status `ToolResult` recording the exception type. -/
def executeSync (cfg : ExecutorConfig) (tool : RegTool) (body : Body)
    (timeout : Option Rat) (validateParams? : Bool)
    (args : List (String × JValue)) : Except PyExc ToolResult :=
  let eff := effectiveTimeout cfg timeout
  match (if validateParams? then validateParameters tool args else none) with
  | some e => .error e
  | none =>
    let run := body args
    if eff < run.duration then
      .error (.toolTimeoutErr (timeoutMsg tool.name eff eff) (some tool.name))
    else
      match run.outcome with
      | .raises e =>
        if isToolExecutionFamily e then .error e
        else
          .ok (ToolResult.mkError
            ("Tool '" ++ tool.name ++ "' execution failed: "
              ++ excTypeName e ++ ": " ++ excText e)
            [("execution_time", .f run.duration),
             ("tool_name", .s tool.name),
             ("exception_type", .s (excTypeName e))])
      | .returns (.inl r) =>
        .ok { r with
              metadata :=
                setKey (setKey r.metadata "execution_time" (.f run.duration))
                  "tool_name" (.s tool.name) }
      | .returns (.inr v) =>
        .ok (ToolResult.mkSuccess v
          [("execution_time", .f run.duration), ("tool_name", .s tool.name)])

/-- `ToolExecutor.execute_async`: the asynchronous dispatch path.  Its
logic is line-for-line that of `_execute_sync` with `asyncio.wait_for`
in place of the pooled `future.result`, so the embedding coincides
with `executeSync`. -/
def executeAsync (cfg : ExecutorConfig) (tool : RegTool) (body : Body)
    (timeout : Option Rat) (validateParams? : Bool)
    (args : List (String × JValue)) : Except PyExc ToolResult :=
  let eff := effectiveTimeout cfg timeout
  match (if validateParams? then validateParameters tool args else none) with
  | some e => .error e
  | none =>
    let run := body args
    if eff < run.duration then
      .error (.toolTimeoutErr (timeoutMsg tool.name eff eff) (some tool.name))
    else
      match run.outcome with
      | .raises e =>
        if isToolExecutionFamily e then .error e
        else
          .ok (ToolResult.mkError
            ("Tool '" ++ tool.name ++ "' execution failed: "
              ++ excTypeName e ++ ": " ++ excText e)
            [("execution_time", .f run.duration),
             ("tool_name", .s tool.name),
             ("exception_type", .s (excTypeName e))])
      | .returns (.inl r) =>
        .ok { r with
              metadata :=
                setKey (setKey r.metadata "execution_time" (.f run.duration))
                  "tool_name" (.s tool.name) }
      | .returns (.inr v) =>
        .ok (ToolResult.mkSuccess v
          [("execution_time", .f run.duration), ("tool_name", .s tool.name)])

/-- `ToolExecutor.execute`: dispatch to the async path when the tool
implements the `AsyncTool` protocol, else to the pooled sync path. -/
def executeTool (cfg : ExecutorConfig) (tool : RegTool) (body : Body)
    (timeout : Option Rat) (validateParams? : Bool)
    (args : List (String × JValue)) : Except PyExc ToolResult :=
  if tool.isAsync then executeAsync cfg tool body timeout validateParams? args
  else executeSync cfg tool body timeout validateParams? args

/-- `ToolDefinition` from `core/tool.py` (post-validation pydantic
model): name, description, parameters schema, dotted handler path,
optional declared timeout and async flag.  The free-form `metadata`
bag is opaque to the core and omitted. -/
structure ToolDefinition where
  name : String
  description : String
  parameters : ParamSchema
  handler : String
  timeout : Option Rat
  asyncHandler : Bool
deriving DecidableEq

/-- The raw field values of a declarative definition before pydantic
validation (the keyword arguments of `ToolDefinition(**data)`). -/
structure RawToolData where
  name : String
  description : String
  parameters : ParamSchema
  handler : String
  timeout : Option Rat := none
  asyncHandler : Bool := false
deriving DecidableEq

/-- `a-z` check for the tool-name pattern. -/
def isLowerAlpha (c : Char) : Bool :=
  'a' ≤ c && c ≤ 'z'

/-- A character allowed after the first in `^[a-z][a-z0-9_]*$`. -/
def isNameTailChar (c : Char) : Bool :=
  isLowerAlpha c || ('0' ≤ c && c ≤ '9') || c = '_'

/-- The `name` field pattern `^[a-z][a-z0-9_]*$` (with
`min_length=1`). -/
def validToolName (s : String) : Bool :=
  match s.data with
  | [] => false
  | c :: cs => isLowerAlpha c && cs.all isNameTailChar

/-- `ToolDefinition.validate_handler_path`: the handler string must be
non-empty and contain a dot. -/
def validHandlerPath (v : String) : Bool :=
  !(v = "" || !(v.data.contains '.'))

/-- `ToolDefinition(**data)`: pydantic construction, running the field
constraints and validators (`name` pattern, non-empty `description`,
`parameters` schema shape — structural in `ParamSchema` here — timeout
positivity, and `validate_handler_path`).  Fails with a validation
error before any handler resolution is attempted. -/
def mkToolDefinition (raw : RawToolData) : Except String ToolDefinition :=
  if !validToolName raw.name then
    .error ("String should match pattern '^[a-z][a-z0-9_]*$'")
  else if raw.description = "" then
    .error ("String should have at least 1 character")
  else if !validHandlerPath raw.handler then
    .error ("handler must be a valid module path (e.g., 'module.function')")
  else
    match raw.timeout with
    | some t =>
      if t ≤ 0 then .error ("Input should be greater than 0")
      else .ok ⟨raw.name, raw.description, raw.parameters, raw.handler,
                raw.timeout, raw.asyncHandler⟩
    | none => .ok ⟨raw.name, raw.description, raw.parameters, raw.handler,
                   raw.timeout, raw.asyncHandler⟩

/-- The importable Python world as the handler resolver sees it:
module path ↦ attribute name ↦ is-callable. -/
def PyEnv : Type := List (String × List (String × Bool))

/-- `str.rsplit(".", 1)` when it yields two parts: split the
character list at its last `.`. -/
def splitLastDotAux : List Char → Option (List Char × List Char)
  | [] => none
  | c :: cs =>
    match splitLastDotAux cs with
    | some (m, f) => some (c :: m, f)
    | none => if c = '.' then some ([], cs) else none

/-- Split a handler path at its last dot into module path and
attribute name; `none` when the string has no dot
(`rsplit` returning a single part). -/
def splitLastDot (s : String) : Option (String × String) :=
  match splitLastDotAux s.data with
  | some (m, f) => some (⟨m⟩, ⟨f⟩)
  | none => none

/-- `ToolRegistry._resolve_handler`: split the dotted path (no dot →
`ImportError`), import the module (`ImportError` on failure), fetch
the attribute (`AttributeError`, re-raised as `ImportError`), and
require it callable (`TypeError` otherwise).  A successful resolution
is identified by its (module, attribute) pair. -/
def resolveHandler (env : PyEnv) (handlerPath : String) :
    Except PyExc (String × String) :=
  match splitLastDot handlerPath with
  | none =>
    .error (.otherExc "ImportError"
      ("Invalid handler path '" ++ handlerPath
        ++ "'. Expected format: 'module.function'"))
  | some (modulePath, functionName) =>
    match lookupKey env modulePath with
    | none =>
      .error (.otherExc "ImportError"
        ("Cannot import module '" ++ modulePath ++ "'"))
    | some attrs =>
      match lookupKey attrs functionName with
      | none =>
        .error (.otherExc "ImportError"
          ("Module '" ++ modulePath ++ "' has no attribute '"
            ++ functionName ++ "'"))
      | some callable =>
        if callable then .ok (modulePath, functionName)
        else
          .error (.otherExc "TypeError"
            ("Handler '" ++ handlerPath ++ "' is not callable"))

/-- `ToolRegistry._create_tool_from_handler`: wrap the resolved
handler in a `_SyncToolWrapper` or `_AsyncToolWrapper`, whose contract
surface delegates to the definition. -/
def createToolFromHandler (d : ToolDefinition) (handler : String × String) :
    RegTool :=
  { name := d.name, description := d.description, parameters := d.parameters,
    isAsync := d.asyncHandler, tag := handler.1 ++ "." ++ handler.2 }

/-- The mutable state of a `ToolRegistry` instance: the `_tools` and
`_definitions` dicts. -/
structure RegistryState where
  tools : List (String × RegTool)
  definitions : List (String × ToolDefinition)
deriving DecidableEq

/-- A freshly constructed registry. -/
def RegistryState.empty : RegistryState := ⟨[], []⟩

/-- `ToolRegistry.register`: reject a duplicate name (checked against
`_tools`) unless `allow_override`, else insert/replace the entry.
The Python method mutates under the instance lock and raises on
rejection; the embedding returns the (possibly unchanged) state plus
the raised exception, if any. -/
def registerTool (st : RegistryState) (tool : RegTool) (allowOverride : Bool) :
    RegistryState × Option PyExc :=
  if !allowOverride && hasKey st.tools tool.name then
    (st, some (.toolRegistrationErr
      ("Tool '" ++ tool.name ++ "' is already registered. "
        ++ "Use allow_override=True to replace it.")
      (some tool.name)))
  else
    ({ st with tools := setKey st.tools tool.name tool }, none)

/-- `ToolRegistry.register_from_definition`: reject a duplicate name
(checked against `_definitions`) unless `allow_override`; otherwise
store the definition, then resolve the handler and insert the wrapped
tool, converting a resolution/instantiation failure into a
`ToolRegistrationError`.  The definition is stored before resolution
is attempted, so a failed resolution leaves it behind. -/
def registerFromDefinition (env : PyEnv) (st : RegistryState)
    (d : ToolDefinition) (allowOverride : Bool) :
    RegistryState × Option PyExc :=
  if !allowOverride && hasKey st.definitions d.name then
    (st, some (.toolRegistrationErr
      ("Tool definition '" ++ d.name ++ "' is already registered. "
        ++ "Use allow_override=True to replace it.")
      (some d.name)))
  else
    let st1 := { st with definitions := setKey st.definitions d.name d }
    match resolveHandler env d.handler with
    | .error e =>
      (st1, some (.toolRegistrationErr
        ("Failed to register tool '" ++ d.name ++ "' from handler '"
          ++ d.handler ++ "': " ++ excText e)
        (some d.name)))
    | .ok h =>
      ({ st1 with tools := setKey st1.tools d.name (createToolFromHandler d h) },
       none)

/-- `ToolRegistry.get`: the registered tool, or a
`ToolNotFoundError`. -/
def getTool (st : RegistryState) (name : String) : Except PyExc RegTool :=
  match lookupKey st.tools name with
  | none =>
    .error (.toolNotFoundErr ("Tool '" ++ name ++ "' is not registered")
      (some name))
  | some t => .ok t

/-- `ToolRegistry.get_definition`. -/
def getDefinition (st : RegistryState) (name : String) : Option ToolDefinition :=
  lookupKey st.definitions name

/-- `ToolRegistry.has`. -/
def hasTool (st : RegistryState) (name : String) : Bool :=
  hasKey st.tools name

instance instDecEqExcept {ε α : Type} [DecidableEq ε] [DecidableEq α] :
    DecidableEq (Except ε α)
  | .error a, .error b =>
    if h : a = b then .isTrue (by rw [h])
    else .isFalse (by intro hh; cases hh; exact h rfl)
  | .error _, .ok _ => .isFalse (by intro hh; cases hh)
  | .ok _, .error _ => .isFalse (by intro hh; cases hh)
  | .ok a, .ok b =>
    if h : a = b then .isTrue (by rw [h])
    else .isFalse (by intro hh; cases hh; exact h rfl)

/-- A file found by the directory loader's glob: its path and the
result of `yaml.safe_load` plus the must-be-a-dict check — either a
parse failure message or the raw definition data. -/
structure YamlFile where
  path : String
  parsed : Except String RawToolData
deriving DecidableEq

/-- `ToolRegistry.register_from_yaml`: parse the file, construct the
`ToolDefinition`, and register it, wrapping any failure into a
`ToolRegistrationError` naming the file. -/
def registerFromYaml (env : PyEnv) (st : RegistryState) (file : YamlFile)
    (allowOverride : Bool) : RegistryState × Option PyExc :=
  match file.parsed with
  | .error e =>
    (st, some (.toolRegistrationErr
      ("Failed to load tool from YAML '" ++ file.path ++ "': " ++ e) none))
  | .ok raw =>
    match mkToolDefinition raw with
    | .error e =>
      (st, some (.toolRegistrationErr
        ("Failed to load tool from YAML '" ++ file.path ++ "': " ++ e) none))
    | .ok d =>
      match registerFromDefinition env st d allowOverride with
      | (st1, some e) =>
        (st1, some (.toolRegistrationErr
          ("Failed to load tool from YAML '" ++ file.path ++ "': "
            ++ excText e) none))
      | (st1, none) => (st1, none)

/-- The directory loader's re-read of a successfully registered file's
`name` field (`data["name"]` when the parsed YAML is a dict with a
string name). -/
def parsedName (f : YamlFile) : List String :=
  match f.parsed with
  | .ok raw => [raw.name]
  | .error _ => []

/-- The loop body of `ToolRegistry.register_from_yaml_directory`:
attempt each file in turn, accumulating the names of successful
registrations (re-read from the file) and the per-file failures. -/
def dirLoadLoop (env : PyEnv) (allowOverride : Bool) :
    RegistryState → List YamlFile → List String → List (String × PyExc) →
    RegistryState × List String × List (String × PyExc)
  | st, [], names, errs => (st, names, errs)
  | st, f :: rest, names, errs =>
    match registerFromYaml env st f allowOverride with
    | (st1, some e) => dirLoadLoop env allowOverride st1 rest names (errs ++ [(f.path, e)])
    | (st1, none) =>
      dirLoadLoop env allowOverride st1 rest (names ++ parsedName f) errs

/-- The aggregate failure message of the directory loader, enumerating
every failed file by path and reason. -/
def aggregateMsg (errs : List (String × PyExc)) : String :=
  "Failed to register " ++ toString errs.length ++ " tool(s):\n"
    ++ String.intercalate "\n" (errs.map fun pe => pe.1 ++ ": " ++ excText pe.2)

/-- `ToolRegistry.register_from_yaml_directory` (the directory given
as its globbed file list): register every file, then either return the
successfully registered names (no failure) or raise one
`ToolRegistrationError` aggregating all failures. -/
def registerFromYamlDirectory (env : PyEnv) (st : RegistryState)
    (files : List YamlFile) (allowOverride : Bool) :
    RegistryState × Except PyExc (List String) :=
  match dirLoadLoop env allowOverride st files [] [] with
  | (st1, names, errs) =>
    if errs.isEmpty then (st1, .ok names)
    else (st1, .error (.toolRegistrationErr (aggregateMsg errs) none))

/-- `ToolCall` from `core/tool_call.py`. -/
structure ToolCall where
  id : String
  name : String
  input : List (String × JValue)
deriving DecidableEq

/-- `ToolCallResult` from `core/tool_call.py`. -/
structure ToolCallResult where
  toolUseId : String
  content : String
  isError : Bool
deriving DecidableEq

/-- `json.dumps` of a payload value, as the orchestrator renders
non-string success data. -/
def jsonDumps : JValue → String
  | .null => "null"
  | .b true => "true"
  | .b false => "false"
  | .i n => toString n
  | .f q => toString q
  | .s txt => "\"" ++ txt ++ "\""

/-- The orchestrator's rendering of a Success outcome's payload:
`"Success"` for `None`, pass-through for strings, JSON serialization
otherwise. -/
def renderSuccessData : JValue → String
  | .null => "Success"
  | .s txt => txt
  | v => jsonDumps v

/-- `ToolOrchestrator.execute_single_tool_call`.  The environment of
actual handler implementations is `bodyOf`; the orchestrator calls the
executor with no timeout override and validation enabled.  The `try`
block is modelled as an `Except` computation; its `except` clauses
convert a `ToolNotFoundError` and any other exception into an
error-flagged `ToolCallResult`, so the function never propagates an
exception. -/
def executeSingleToolCall (cfg : ExecutorConfig)
    (bodyOf : RegTool → Body) (reg : RegistryState) (call : ToolCall) :
    ToolCallResult :=
  let attempt : Except PyExc ToolCallResult :=
    if !(hasTool reg call.name) then
      .ok ⟨call.id, "Error: Tool '" ++ call.name ++ "' not found in registry",
           true⟩
    else
      match getTool reg call.name with
      | .error e => .error e
      | .ok tool =>
        match executeTool cfg tool (bodyOf tool) none true call.input with
        | .error e => .error e
        | .ok r =>
          if r.isSuccess then
            .ok ⟨call.id, renderSuccessData r.data, false⟩
          else
            .ok ⟨call.id,
                 (match r.errorMessage with
                  | some m => m
                  | none => "Unknown error occurred"),
                 true⟩
  match attempt with
  | .ok res => res
  | .error (.toolNotFoundErr msg _) =>
    ⟨call.id, "Tool not found: " ++ msg, true⟩
  | .error e =>
    ⟨call.id, "Execution error: " ++ excTypeName e ++ ": " ++ excText e, true⟩

/-- `ToolOrchestrator.execute_tool_calls`: execute each call in order,
appending one result per call. -/
def executeToolCalls (cfg : ExecutorConfig) (bodyOf : RegTool → Body)
    (reg : RegistryState) : List ToolCall → List ToolCallResult
  | [] => []
  | c :: rest =>
    executeSingleToolCall cfg bodyOf reg c :: executeToolCalls cfg bodyOf reg rest

/-! ## Association-list lemmas -/

theorem lookupKey_setKey_self {α : Type} (m : List (String × α)) (k : String)
    (v : α) : lookupKey (setKey m k v) k = some v := by
  induction m with
  | nil => simp [setKey, lookupKey]
  | cons kv rest ih =>
    obtain ⟨k', v'⟩ := kv
    by_cases h : k' = k
    · simp [setKey, h, lookupKey]
    · simp [setKey, h, lookupKey, ih]

theorem lookupKey_setKey_ne {α : Type} (m : List (String × α)) (k k' : String)
    (v : α) (h : k' ≠ k) : lookupKey (setKey m k v) k' = lookupKey m k' := by
  have hkk : k ≠ k' := Ne.symm h
  induction m with
  | nil => simp [setKey, lookupKey, hkk]
  | cons kv rest ih =>
    obtain ⟨k₀, v₀⟩ := kv
    by_cases h0 : k₀ = k
    · simp [setKey, h0, lookupKey, hkk]
    · simp only [setKey, h0, if_false, lookupKey]
      by_cases h1 : k₀ = k'
      · simp [h1]
      · simp [h1, ih]

theorem hasKey_setKey_self {α : Type} (m : List (String × α)) (k : String)
    (v : α) : hasKey (setKey m k v) k = true := by
  simp [hasKey, lookupKey_setKey_self]

theorem hasKey_setKey_mono {α : Type} (m : List (String × α)) (k k' : String)
    (v : α) (h : hasKey m k' = true) : hasKey (setKey m k v) k' = true := by
  by_cases hk : k' = k
  · subst hk; exact hasKey_setKey_self m k' v
  · simpa [hasKey, lookupKey_setKey_ne m k k' v hk] using h

/-! ## jsonschema check vs. declarative satisfaction -/

/-- The declarative reading of "the arguments satisfy the capability's
parameter schema" for the modelled schema fragment: every required
property is present, and every supplied argument with a declared
property type matches it. -/
def SatisfiesSchema (schema : ParamSchema) (args : List (String × JValue)) :
    Prop :=
  (∀ r ∈ schema.required, hasKey args r = true) ∧
  (∀ p ∈ args, ∀ t, lookupKey schema.properties p.1 = some t →
    typeMatches t p.2 = true)

/-- The declarative reading of "the arguments violate a required-field
or type constraint". -/
def ViolatesSchema (schema : ParamSchema) (args : List (String × JValue)) :
    Prop :=
  (∃ r ∈ schema.required, hasKey args r = false) ∨
  (∃ p ∈ args, ∃ t, lookupKey schema.properties p.1 = some t ∧
    typeMatches t p.2 = false)

theorem checkRequired_eq_none_iff (args : List (String × JValue)) :
    ∀ req : List String,
      checkRequired args req = none ↔ ∀ r ∈ req, hasKey args r = true := by
  intro req
  induction req with
  | nil => simp [checkRequired]
  | cons r rest ih =>
    by_cases h : hasKey args r
    · simp [checkRequired, h, ih]
    · simp only [Bool.not_eq_true] at h
      simp [checkRequired, h]

theorem checkTypes_eq_none_iff (props : List (String × JType)) :
    ∀ args : List (String × JValue),
      checkTypes props args = none ↔
        ∀ p ∈ args, ∀ t, lookupKey props p.1 = some t →
          typeMatches t p.2 = true
  | [] => by simp [checkTypes]
  | (k, v) :: rest => by
    have ih := checkTypes_eq_none_iff props rest
    cases hp : lookupKey props k with
    | none =>
      simp only [checkTypes, hp, ih, List.forall_mem_cons]
      constructor
      · intro h
        exact ⟨fun t ht => (by cases ht), h⟩
      · exact fun h => h.2
    | some t =>
      by_cases htm : typeMatches t v
      · simp only [checkTypes, hp, htm, if_true, ih, List.forall_mem_cons]
        constructor
        · intro h
          refine ⟨fun t' ht' => ?_, h⟩
          injection ht' with ht'
          subst ht'
          exact htm
        · exact fun h => h.2
      · simp only [Bool.not_eq_true] at htm
        simp only [checkTypes, hp, htm, Bool.false_eq_true, if_false,
          List.forall_mem_cons]
        constructor
        · intro h; cases h
        · intro h
          have h0 := h.1 t rfl
          rw [htm] at h0
          cases h0

theorem jsonschemaCheck_eq_none_iff (schema : ParamSchema)
    (args : List (String × JValue)) :
    jsonschemaCheck schema args = none ↔ SatisfiesSchema schema args := by
  unfold jsonschemaCheck SatisfiesSchema
  cases hr : checkRequired args schema.required with
  | some e =>
    constructor
    · intro h; cases h
    · rintro ⟨h1, _⟩
      rw [(checkRequired_eq_none_iff args schema.required).2 h1] at hr
      cases hr
  | none =>
    rw [checkTypes_eq_none_iff]
    rw [checkRequired_eq_none_iff] at hr
    tauto

theorem violates_iff_not_satisfies (schema : ParamSchema)
    (args : List (String × JValue)) :
    ViolatesSchema schema args ↔ ¬ SatisfiesSchema schema args := by
  unfold ViolatesSchema SatisfiesSchema
  constructor
  · rintro (⟨r, hr, hmiss⟩ | ⟨p, hmem, t, hlk, hmis⟩) ⟨h1, h2⟩
    · rw [h1 r hr] at hmiss; cases hmiss
    · rw [h2 p hmem t hlk] at hmis; cases hmis
  · intro h
    by_cases h1 : ∀ r ∈ schema.required, hasKey args r = true
    · right
      by_contra h2
      push_neg at h2
      apply h
      refine ⟨h1, fun p hmem t hlk => ?_⟩
      by_contra h3
      exact h2 p hmem t hlk (by simpa using h3)
    · left
      push_neg at h1
      obtain ⟨r, hr, hmiss⟩ := h1
      exact ⟨r, hr, by simpa using hmiss⟩

/-! ## Executor dispatch lemmas -/

theorem executeAsync_eq_executeSync : executeAsync = executeSync := rfl

theorem executeTool_eq_executeSync (cfg : ExecutorConfig) (tool : RegTool)
    (body : Body) (timeout : Option Rat) (vp : Bool)
    (args : List (String × JValue)) :
    executeTool cfg tool body timeout vp args =
      executeSync cfg tool body timeout vp args := by
  unfold executeTool
  rw [executeAsync_eq_executeSync, ite_self]

/-! ## Concrete fixtures -/

/-- An `echo`-style parameter schema requiring a string `message`. -/
def sampleSchema : ParamSchema := ⟨[("message", .stringT)], ["message"]⟩

/-- A programmatically registered tool instance. -/
def toolA : RegTool := ⟨"echo", "echo tool", sampleSchema, false, "impl1"⟩

/-- A second instance under the same name with a different callable. -/
def toolB : RegTool := ⟨"echo", "echo tool v2", sampleSchema, false, "impl2"⟩

/-! ## C9 -/

/-- C9: on a fresh name, `register` followed by `get` returns exactly
the registered tool; a second registration of the same name without
override fails with a `ToolRegistrationError` and leaves the first in
place; with override the second replaces the first, so a subsequent
`get` returns the new one. -/
theorem register_get_roundtrip_override (st : RegistryState) (t t' : RegTool)
    (hfresh : hasKey st.tools t.name = false) (hname : t'.name = t.name) :
    (registerTool st t false).2 = none ∧
    getTool (registerTool st t false).1 t.name = .ok t ∧
    (registerTool (registerTool st t false).1 t' false).2 =
      some (.toolRegistrationErr
        ("Tool '" ++ t'.name ++ "' is already registered. "
          ++ "Use allow_override=True to replace it.") (some t'.name)) ∧
    getTool (registerTool (registerTool st t false).1 t' false).1 t.name =
      .ok t ∧
    (registerTool (registerTool st t false).1 t' true).2 = none ∧
    getTool (registerTool (registerTool st t false).1 t' true).1 t.name =
      .ok t' := by
  have h1 : registerTool st t false =
      ({ st with tools := setKey st.tools t.name t }, none) := by
    simp [registerTool, hfresh]
  have hhas : hasKey (setKey st.tools t.name t) t'.name = true := by
    rw [hname]
    exact hasKey_setKey_self _ _ _
  refine ⟨by rw [h1], ?_, ?_, ?_, ?_, ?_⟩
  · rw [h1]
    simp [getTool, lookupKey_setKey_self]
  · rw [h1]
    simp [registerTool, hhas]
  · rw [h1]
    simp [registerTool, hhas, getTool, lookupKey_setKey_self]
  · rw [h1]
    simp [registerTool]
  · rw [h1]
    simp [registerTool, getTool, hname, lookupKey_setKey_self]

/-- C9 witness: the round-trip/override behaviour at concrete
inputs. -/
theorem register_get_roundtrip_override_witness :
    (hasKey RegistryState.empty.tools toolA.name = false ∧
      toolB.name = toolA.name) ∧
    ((registerTool RegistryState.empty toolA false).2 = none ∧
    getTool (registerTool RegistryState.empty toolA false).1 toolA.name =
      .ok toolA ∧
    (registerTool (registerTool RegistryState.empty toolA false).1 toolB
        false).2 =
      some (.toolRegistrationErr
        ("Tool '" ++ toolB.name ++ "' is already registered. "
          ++ "Use allow_override=True to replace it.") (some toolB.name)) ∧
    getTool (registerTool (registerTool RegistryState.empty toolA false).1
        toolB false).1 toolA.name = .ok toolA ∧
    (registerTool (registerTool RegistryState.empty toolA false).1 toolB
        true).2 = none ∧
    getTool (registerTool (registerTool RegistryState.empty toolA false).1
        toolB true).1 toolA.name = .ok toolB) :=
  ⟨⟨by decide, rfl⟩,
   register_get_roundtrip_override RegistryState.empty toolA toolB
     (by decide) rfl⟩

/-! ## C3 -/

theorem lookupKey_eq_none_of_hasKey_false {α : Type}
    (m : List (String × α)) (k : String) (h : hasKey m k = false) :
    lookupKey m k = none := by
  unfold hasKey at h
  cases hl : lookupKey m k with
  | none => rfl
  | some v => rw [hl] at h; cases h

/-- C3 (amended): when handler resolution fails,
`register_from_definition` raises a `ToolRegistrationError` and leaves
the `_tools` dict untouched — `has` stays false and `get` fails with
`ToolNotFoundError` — but the definition has already been stored in
`_definitions`, so it remains observable via `get_definition`, and a
later `register_from_definition` of the same name without override is
blocked by the leftover definition. -/
theorem registerFromDefinition_failed_resolution_state (env : PyEnv)
    (st : RegistryState) (d : ToolDefinition) (e : PyExc)
    (hdef : hasKey st.definitions d.name = false)
    (htool : hasKey st.tools d.name = false)
    (hres : resolveHandler env d.handler = .error e) :
    (registerFromDefinition env st d false).2 =
      some (.toolRegistrationErr
        ("Failed to register tool '" ++ d.name ++ "' from handler '"
          ++ d.handler ++ "': " ++ excText e) (some d.name)) ∧
    (registerFromDefinition env st d false).1.tools = st.tools ∧
    hasTool (registerFromDefinition env st d false).1 d.name = false ∧
    getTool (registerFromDefinition env st d false).1 d.name =
      .error (.toolNotFoundErr ("Tool '" ++ d.name ++ "' is not registered")
        (some d.name)) ∧
    getDefinition (registerFromDefinition env st d false).1 d.name = some d ∧
    registerFromDefinition env (registerFromDefinition env st d false).1 d
        false =
      ((registerFromDefinition env st d false).1,
       some (.toolRegistrationErr
         ("Tool definition '" ++ d.name ++ "' is already registered. "
           ++ "Use allow_override=True to replace it.") (some d.name))) := by
  have h1 : registerFromDefinition env st d false =
      ({ st with definitions := setKey st.definitions d.name d },
       some (.toolRegistrationErr
         ("Failed to register tool '" ++ d.name ++ "' from handler '"
           ++ d.handler ++ "': " ++ excText e) (some d.name))) := by
    simp [registerFromDefinition, hdef, hres]
  refine ⟨by rw [h1], by rw [h1], ?_, ?_, ?_, ?_⟩
  · rw [h1]
    simpa [hasTool] using htool
  · rw [h1]
    simp [getTool, lookupKey_eq_none_of_hasKey_false st.tools d.name htool]
  · rw [h1]
    simp [getDefinition, lookupKey_setKey_self]
  · rw [h1]
    simp [registerFromDefinition, hasKey_setKey_self]

/-- The importable world for the concrete registry scenarios: one
module `m` with a callable attribute `f`. -/
def envM : PyEnv := [("m", [("f", true)])]

/-- A trivial object schema with no properties and no required
fields. -/
def emptySchema : ParamSchema := ⟨[], []⟩

/-- A definition whose handler module does not exist. -/
def dBad : ToolDefinition :=
  ⟨"mytool", "a tool", emptySchema, "nosuch.fn", none, false⟩

/-- The same capability name with a resolvable handler. -/
def dGood : ToolDefinition :=
  ⟨"mytool", "a tool", emptySchema, "m.f", none, false⟩

/-- C3 counterexample: after `register_from_definition` fails
resolving `mytool`'s handler, no tool entry is observable, yet a later
registration of `mytool` with a perfectly resolvable handler and no
override is blocked by the leftover definition — refuting the claim
that the failed attempt does not block a later registration. -/
theorem failed_registration_blocks_retry :
    resolveHandler envM dGood.handler = .ok ("m", "f") ∧
    (registerFromDefinition envM RegistryState.empty dBad false).2.isSome =
      true ∧
    hasTool (registerFromDefinition envM RegistryState.empty dBad false).1
      "mytool" = false ∧
    (registerFromDefinition envM
        (registerFromDefinition envM RegistryState.empty dBad false).1
        dGood false).2 =
      some (.toolRegistrationErr
        ("Tool definition 'mytool' is already registered. "
          ++ "Use allow_override=True to replace it.") (some "mytool")) := by
  exact ⟨rfl, rfl, rfl, rfl⟩

/-- C3 witness: the amended statement at the concrete failing
scenario. -/
theorem registerFromDefinition_failed_resolution_state_witness :
    (hasKey RegistryState.empty.definitions dBad.name = false ∧
      hasKey RegistryState.empty.tools dBad.name = false ∧
      resolveHandler envM dBad.handler =
        .error (.otherExc "ImportError" "Cannot import module 'nosuch'")) ∧
    ((registerFromDefinition envM RegistryState.empty dBad false).2 =
      some (.toolRegistrationErr
        ("Failed to register tool '" ++ dBad.name ++ "' from handler '"
          ++ dBad.handler ++ "': "
          ++ excText (.otherExc "ImportError" "Cannot import module 'nosuch'"))
        (some dBad.name)) ∧
    (registerFromDefinition envM RegistryState.empty dBad false).1.tools =
      RegistryState.empty.tools ∧
    hasTool (registerFromDefinition envM RegistryState.empty dBad false).1
      dBad.name = false ∧
    getTool (registerFromDefinition envM RegistryState.empty dBad false).1
      dBad.name =
      .error (.toolNotFoundErr
        ("Tool '" ++ dBad.name ++ "' is not registered") (some dBad.name)) ∧
    getDefinition (registerFromDefinition envM RegistryState.empty dBad
        false).1 dBad.name = some dBad ∧
    registerFromDefinition envM
        (registerFromDefinition envM RegistryState.empty dBad false).1 dBad
        false =
      ((registerFromDefinition envM RegistryState.empty dBad false).1,
       some (.toolRegistrationErr
         ("Tool definition '" ++ dBad.name ++ "' is already registered. "
           ++ "Use allow_override=True to replace it.") (some dBad.name)))) :=
  ⟨⟨by decide, by decide, rfl⟩,
   registerFromDefinition_failed_resolution_state envM RegistryState.empty
     dBad (.otherExc "ImportError" "Cannot import module 'nosuch'")
     (by decide) (by decide) rfl⟩

/-! ## C10 -/

theorem splitLastDotAux_eq_none (cs : List Char)
    (h : cs.contains '.' = false) : splitLastDotAux cs = none := by
  induction cs with
  | nil => rfl
  | cons c rest ih =>
    have h' : rest.contains '.' = false ∧ ¬ c = '.' := by
      by_cases hc : c = '.'
      · subst hc
        simp [List.contains_cons] at h
      · refine ⟨?_, hc⟩
        simp only [List.contains_cons, Bool.or_eq_false_iff] at h
        exact h.2
    rw [splitLastDotAux, ih h'.1]
    simp [h'.2]

theorem splitLastDot_eq_none (s : String)
    (h : s.data.contains '.' = false) : splitLastDot s = none := by
  unfold splitLastDot
  rw [splitLastDotAux_eq_none s.data h]

/-- C10: a declarative definition whose handler string contains no dot
is rejected by pydantic validation at construction, before any
resolution; and even if such a definition is handed to the YAML
registration path directly, the registry's own resolver rejects the
dotless path with an `ImportError` regardless of what callables exist,
so the capability is never registered. -/
theorem dotless_handler_never_registered (raw : RawToolData)
    (h : raw.handler.data.contains '.' = false) :
    (∃ e, mkToolDefinition raw = .error e) ∧
    (∀ env : PyEnv, resolveHandler env raw.handler =
      .error (.otherExc "ImportError"
        ("Invalid handler path '" ++ raw.handler
          ++ "'. Expected format: 'module.function'"))) ∧
    (∀ (env : PyEnv) (st : RegistryState) (path : String) (ov : Bool),
      ∃ e, registerFromYaml env st ⟨path, .ok raw⟩ ov = (st, some e)) := by
  have hvh : validHandlerPath raw.handler = false := by
    unfold validHandlerPath
    rw [h]
    simp
  have hmk : ∃ e, mkToolDefinition raw = .error e := by
    unfold mkToolDefinition
    by_cases h1 : validToolName raw.name
    · by_cases h2 : raw.description = ""
      · exact ⟨"String should have at least 1 character", by simp [h1, h2]⟩
      · exact ⟨"handler must be a valid module path (e.g., 'module.function')",
          by simp [h1, h2, hvh]⟩
    · exact ⟨"String should match pattern '^[a-z][a-z0-9_]*$'", by simp [h1]⟩
  refine ⟨hmk, ?_, ?_⟩
  · intro env
    unfold resolveHandler
    rw [splitLastDot_eq_none raw.handler h]
  · intro env st path ov
    obtain ⟨e, he⟩ := hmk
    refine ⟨.toolRegistrationErr
      ("Failed to load tool from YAML '" ++ path ++ "': " ++ e) none, ?_⟩
    simp only [registerFromYaml, he]

/-- A raw declarative definition whose handler is the bare name of an
existing top-level callable. -/
def rawBare : RawToolData := ⟨"bare", "a tool", emptySchema, "len", none, false⟩

/-- C10 witness: the dotless-handler rejection at a concrete
definition whose handler names an importable callable. -/
theorem dotless_handler_never_registered_witness :
    ("len".data.contains '.' = false) ∧
    ((∃ e, mkToolDefinition rawBare = .error e) ∧
    (∀ env : PyEnv, resolveHandler env rawBare.handler =
      .error (.otherExc "ImportError"
        ("Invalid handler path '" ++ rawBare.handler
          ++ "'. Expected format: 'module.function'"))) ∧
    (∀ (env : PyEnv) (st : RegistryState) (path : String) (ov : Bool),
      ∃ e, registerFromYaml env st ⟨path, .ok rawBare⟩ ov = (st, some e))) :=
  ⟨by decide, dotless_handler_never_registered rawBare (by decide)⟩

/-! ## C4 -/

theorem registerFromDefinition_tools_mono (env : PyEnv) (st : RegistryState)
    (d : ToolDefinition) (ov : Bool) (n : String)
    (h : hasKey st.tools n = true) :
    hasKey (registerFromDefinition env st d ov).1.tools n = true := by
  unfold registerFromDefinition
  by_cases h1 : (!ov && hasKey st.definitions d.name) = true
  · rw [if_pos h1]
    exact h
  · rw [if_neg h1]
    cases hr : resolveHandler env d.handler with
    | error e => simpa using h
    | ok hd => simpa using hasKey_setKey_mono st.tools d.name n _ h

theorem registerFromYaml_tools_mono (env : PyEnv) (st : RegistryState)
    (f : YamlFile) (ov : Bool) (n : String) (h : hasTool st n = true) :
    hasTool (registerFromYaml env st f ov).1 n = true := by
  obtain ⟨path, parsed⟩ := f
  cases parsed with
  | error e => simpa [registerFromYaml] using h
  | ok raw =>
    cases hd : mkToolDefinition raw with
    | error e => simpa [registerFromYaml, hd] using h
    | ok d =>
      rcases hr : registerFromDefinition env st d ov with ⟨st1, e?⟩
      have hm := registerFromDefinition_tools_mono env st d ov n h
      rw [hr] at hm
      cases e? with
      | some e => simpa [registerFromYaml, hd, hr, hasTool] using hm
      | none => simpa [registerFromYaml, hd, hr, hasTool] using hm

theorem mkToolDefinition_name (raw : RawToolData) (d : ToolDefinition)
    (h : mkToolDefinition raw = .ok d) : d.name = raw.name := by
  unfold mkToolDefinition at h
  by_cases h1 : validToolName raw.name
  · by_cases h2 : raw.description = ""
    · simp [h1, h2] at h
    · by_cases h3 : validHandlerPath raw.handler
      · simp only [h1, h2, h3, Bool.not_true, Bool.false_eq_true, if_false,
          if_true, if_neg] at h
        cases ht : raw.timeout with
        | some t =>
          rw [ht] at h
          by_cases h4 : t ≤ 0
          · simp [h4] at h
          · simp only [h4, if_false] at h
            cases h
            rfl
        | none =>
          rw [ht] at h
          cases h
          rfl
      · simp [h1, h2, h3] at h
  · simp [h1] at h

theorem registerFromDefinition_success_hasTool (env : PyEnv)
    (st : RegistryState) (d : ToolDefinition) (ov : Bool)
    (st1 : RegistryState) (h : registerFromDefinition env st d ov = (st1, none)) :
    hasKey st1.tools d.name = true := by
  unfold registerFromDefinition at h
  by_cases h1 : (!ov && hasKey st.definitions d.name) = true
  · rw [if_pos h1] at h
    cases h
  · rw [if_neg h1] at h
    cases hr : resolveHandler env d.handler with
    | error e =>
      rw [hr] at h
      cases h
    | ok hd =>
      rw [hr] at h
      cases h
      exact hasKey_setKey_self _ _ _

theorem registerFromYaml_success_hasTool (env : PyEnv) (st : RegistryState)
    (f : YamlFile) (ov : Bool) (raw : RawToolData) (hp : f.parsed = .ok raw)
    (h : (registerFromYaml env st f ov).2 = none) :
    hasTool (registerFromYaml env st f ov).1 raw.name = true := by
  obtain ⟨path, parsed⟩ := f
  have hp' : parsed = Except.ok raw := hp
  subst hp'
  cases hd : mkToolDefinition raw with
  | error e => simp [registerFromYaml, hd] at h
  | ok d =>
    rcases hr : registerFromDefinition env st d ov with ⟨st1, e?⟩
    cases e? with
    | some e => simp [registerFromYaml, hd, hr] at h
    | none =>
      have h2 := registerFromDefinition_success_hasTool env st d ov st1 hr
      rw [mkToolDefinition_name raw d hd] at h2
      simpa [registerFromYaml, hd, hr, hasTool] using h2

theorem dirLoadLoop_append (env : PyEnv) (ov : Bool) :
    ∀ (files : List YamlFile) (st : RegistryState) (names : List String)
      (errs : List (String × PyExc)),
      dirLoadLoop env ov st files names errs =
        ((dirLoadLoop env ov st files [] []).1,
         names ++ (dirLoadLoop env ov st files [] []).2.1,
         errs ++ (dirLoadLoop env ov st files [] []).2.2)
  | [], st, names, errs => by simp [dirLoadLoop]
  | f :: rest, st, names, errs => by
    rcases hr : registerFromYaml env st f ov with ⟨st1, e?⟩
    cases e? with
    | some e =>
      simp only [dirLoadLoop, hr]
      rw [dirLoadLoop_append env ov rest st1 names (errs ++ [(f.path, e)]),
          dirLoadLoop_append env ov rest st1 [] ([] ++ [(f.path, e)])]
      simp
    | none =>
      simp only [dirLoadLoop, hr]
      rw [dirLoadLoop_append env ov rest st1 (names ++ parsedName f) errs,
          dirLoadLoop_append env ov rest st1 ([] ++ parsedName f) []]
      simp

theorem dirLoadLoop_names_registered (env : PyEnv) (ov : Bool) :
    ∀ (files : List YamlFile) (st : RegistryState) (names : List String)
      (errs : List (String × PyExc)),
      (∀ n ∈ names, hasTool st n = true) →
      ∀ n ∈ (dirLoadLoop env ov st files names errs).2.1,
        hasTool (dirLoadLoop env ov st files names errs).1 n = true
  | [], st, names, errs, hinv => by simpa [dirLoadLoop] using hinv
  | f :: rest, st, names, errs, hinv => by
    rcases hr : registerFromYaml env st f ov with ⟨st1, e?⟩
    cases e? with
    | some e =>
      simp only [dirLoadLoop, hr]
      refine dirLoadLoop_names_registered env ov rest st1 names
        (errs ++ [(f.path, e)]) ?_
      intro n hn
      have hm := registerFromYaml_tools_mono env st f ov n (hinv n hn)
      rwa [hr] at hm
    | none =>
      simp only [dirLoadLoop, hr]
      refine dirLoadLoop_names_registered env ov rest st1 _ errs ?_
      intro n hn
      rcases List.mem_append.mp hn with h1 | h1
      · have hm := registerFromYaml_tools_mono env st f ov n (hinv n h1)
        rwa [hr] at hm
      · cases hp : f.parsed with
        | error e =>
          rw [parsedName, hp] at h1
          cases h1
        | ok raw =>
          rw [parsedName, hp] at h1
          simp at h1
          subst h1
          have hm := registerFromYaml_success_hasTool env st f ov raw hp
            (by rw [hr])
          rwa [hr] at hm

/-- C4 (amended): the directory loader registers every valid
definition (each successfully registered name is present in the final
registry state) and aggregates all per-file failures into one
`ToolRegistrationError` enumerating each failed file by path and
reason; but the list of successfully registered names is returned only
when no file failed — when any failure occurs, the loader raises the
aggregate error instead of returning the list, although the successful
registrations persist.  A failing file does not block the rest: the
loop continues over the remaining files, merely appending the failure
to the aggregate. -/
theorem yaml_directory_partial_success (env : PyEnv) (st : RegistryState)
    (files : List YamlFile) (ov : Bool) (st' : RegistryState)
    (names : List String) (errs : List (String × PyExc))
    (h : dirLoadLoop env ov st files [] [] = (st', names, errs)) :
    (∀ n ∈ names, hasTool st' n = true) ∧
    (errs = [] →
      registerFromYamlDirectory env st files ov = (st', .ok names)) ∧
    (errs ≠ [] →
      registerFromYamlDirectory env st files ov =
        (st', .error (.toolRegistrationErr (aggregateMsg errs) none))) ∧
    (∀ f rest e, files = f :: rest →
      (registerFromYaml env st f ov).2 = some e →
      dirLoadLoop env ov (registerFromYaml env st f ov).1 rest [] [] =
        (st', names, errs.tail) ∧ errs = (f.path, e) :: errs.tail) := by
  refine ⟨?_, ?_, ?_, ?_⟩
  · intro n hn
    have := dirLoadLoop_names_registered env ov files st [] []
      (by intro n hn; cases hn) n (by rw [h]; exact hn)
    rwa [h] at this
  · intro he
    unfold registerFromYamlDirectory
    rw [h, he]
    rfl
  · intro he
    unfold registerFromYamlDirectory
    rw [h]
    cases errs with
    | nil => cases he rfl
    | cons p ps => rfl
  · intro f rest e hf hfail
    subst hf
    rcases hr : registerFromYaml env st f ov with ⟨st1, e?⟩
    rw [hr] at hfail
    simp only at hfail
    subst hfail
    simp only [dirLoadLoop, hr] at h
    rw [dirLoadLoop_append env ov rest st1 [] ([] ++ [(f.path, e)])] at h
    simp only [List.nil_append, List.singleton_append, Prod.mk.injEq] at h
    obtain ⟨h1, h2, h3⟩ := h
    refine ⟨?_, ?_⟩
    · simp only []
      rw [← h1, ← h2, ← h3]
      rfl
    · rw [← h3]
      rfl

/-- A raw definition whose handler module does not exist. -/
def rawBad : RawToolData :=
  ⟨"bad_tool", "a tool", emptySchema, "nosuch.fn", none, false⟩

/-- A raw definition with a resolvable handler. -/
def rawGood : RawToolData :=
  ⟨"good_tool", "a tool", emptySchema, "m.f", none, false⟩

/-- The bad declarative file. -/
def fBad : YamlFile := ⟨"bad.yaml", .ok rawBad⟩

/-- The good declarative file. -/
def fGood : YamlFile := ⟨"good.yaml", .ok rawGood⟩

/-- A directory with one invalid and one valid definition. -/
def dirFiles : List YamlFile := [fBad, fGood]

/-- C4 counterexample: on a directory with one invalid and one valid
definition, the loader does register the valid one, but its outcome is
the aggregate error — the list of successfully registered names
(`["good_tool"]`) is not returned to the caller, refuting the claim
that the loader both registers the valid definitions and returns their
names. -/
theorem yaml_directory_failure_counterexample :
    hasTool (registerFromYamlDirectory envM RegistryState.empty dirFiles
      false).1 "good_tool" = true ∧
    (registerFromYamlDirectory envM RegistryState.empty dirFiles false).2 ≠
      .ok ["good_tool"] ∧
    (registerFromYamlDirectory envM RegistryState.empty dirFiles false).2 =
      .error (.toolRegistrationErr
        (aggregateMsg [("bad.yaml",
          .toolRegistrationErr
            ("Failed to load tool from YAML 'bad.yaml': "
              ++ "Failed to register tool 'bad_tool' from handler "
              ++ "'nosuch.fn': Cannot import module 'nosuch'")
            none)]) none) := by
  refine ⟨rfl, ?_, rfl⟩
  intro hcontra
  cases hcontra

/-- C4 witness: the amended statement at the concrete mixed
directory. -/
theorem yaml_directory_partial_success_witness :
    (dirLoadLoop envM false RegistryState.empty dirFiles [] [] =
      ((dirLoadLoop envM false RegistryState.empty dirFiles [] []).1,
       (dirLoadLoop envM false RegistryState.empty dirFiles [] []).2.1,
       (dirLoadLoop envM false RegistryState.empty dirFiles [] []).2.2)) ∧
    ((∀ n ∈ (dirLoadLoop envM false RegistryState.empty dirFiles [] []).2.1,
      hasTool (dirLoadLoop envM false RegistryState.empty dirFiles [] []).1 n =
        true) ∧
    ((dirLoadLoop envM false RegistryState.empty dirFiles [] []).2.2 = [] →
      registerFromYamlDirectory envM RegistryState.empty dirFiles false =
        ((dirLoadLoop envM false RegistryState.empty dirFiles [] []).1,
         .ok (dirLoadLoop envM false RegistryState.empty dirFiles [] []).2.1)) ∧
    ((dirLoadLoop envM false RegistryState.empty dirFiles [] []).2.2 ≠ [] →
      registerFromYamlDirectory envM RegistryState.empty dirFiles false =
        ((dirLoadLoop envM false RegistryState.empty dirFiles [] []).1,
         .error (.toolRegistrationErr
           (aggregateMsg
             (dirLoadLoop envM false RegistryState.empty dirFiles [] []).2.2)
           none))) ∧
    (∀ f rest e, dirFiles = f :: rest →
      (registerFromYaml envM RegistryState.empty f false).2 = some e →
      dirLoadLoop envM false (registerFromYaml envM RegistryState.empty f
          false).1 rest [] [] =
        ((dirLoadLoop envM false RegistryState.empty dirFiles [] []).1,
         (dirLoadLoop envM false RegistryState.empty dirFiles [] []).2.1,
         (dirLoadLoop envM false RegistryState.empty dirFiles [] []).2.2.tail) ∧
      (dirLoadLoop envM false RegistryState.empty dirFiles [] []).2.2 =
        (f.path, e) ::
          (dirLoadLoop envM false RegistryState.empty dirFiles [] []).2.2.tail)) :=
  ⟨rfl,
   yaml_directory_partial_success envM RegistryState.empty dirFiles false
     _ _ _ rfl⟩

/-! ## C8 -/

/-- C8: when the body returns within the deadline (and validation,
when enabled, passes), a value already in `ToolResult` shape is
returned with only its metadata stamped — status, payload and error
message are preserved, and metadata keys other than `execution_time`
and `tool_name` are untouched — while a bare value is wrapped as a
Success outcome carrying it as payload. -/
theorem result_normalization (cfg : ExecutorConfig) (tool : RegTool)
    (timeout : Option Rat) (vp : Bool) (args : List (String × JValue))
    (dur : Rat) (r : ToolResult)
    (hval : vp = true → validateParameters tool args = none)
    (hdl : dur ≤ effectiveTimeout cfg timeout) :
    (executeTool cfg tool (fun _ => ⟨dur, .returns (.inl r)⟩) timeout vp args =
      .ok { r with metadata := setKey (setKey r.metadata "execution_time"
                     (.f dur)) "tool_name" (.s tool.name) }) ∧
    (∀ k, k ≠ "execution_time" → k ≠ "tool_name" →
      lookupKey (setKey (setKey r.metadata "execution_time" (.f dur))
        "tool_name" (.s tool.name)) k = lookupKey r.metadata k) ∧
    (∀ v, executeTool cfg tool (fun _ => ⟨dur, .returns (.inr v)⟩) timeout vp
        args =
      .ok (ToolResult.mkSuccess v
        [("execution_time", .f dur), ("tool_name", .s tool.name)])) := by
  have hv : (if vp then validateParameters tool args else none) = none := by
    cases vp
    · rfl
    · exact hval rfl
  have hlt : ¬ (effectiveTimeout cfg timeout < dur) := not_lt.mpr hdl
  refine ⟨?_, ?_, ?_⟩
  · rw [executeTool_eq_executeSync]
    simp only [executeSync, hv, hlt, if_false]
  · intro k hk1 hk2
    rw [lookupKey_setKey_ne _ _ _ _ hk2, lookupKey_setKey_ne _ _ _ _ hk1]
  · intro v
    rw [executeTool_eq_executeSync]
    simp only [executeSync, hv, hlt, if_false]

/-- A concrete `ToolResult` a body might return, with its own
metadata. -/
def bodyResult : ToolResult :=
  ⟨.error, .null, some "oops", [("attempt", .i 1)]⟩

/-- C8 witness: normalization at a concrete call. -/
theorem result_normalization_witness :
    ((true = true → validateParameters toolA [("message", .s "hi")] = none) ∧
      (2 : Rat) ≤ effectiveTimeout {} none) ∧
    ((executeTool {} toolA (fun _ => ⟨2, .returns (.inl bodyResult)⟩) none true
        [("message", .s "hi")] =
      .ok { bodyResult with metadata := setKey (setKey bodyResult.metadata
                     "execution_time" (.f 2)) "tool_name" (.s toolA.name) }) ∧
    (∀ k, k ≠ "execution_time" → k ≠ "tool_name" →
      lookupKey (setKey (setKey bodyResult.metadata "execution_time" (.f 2))
        "tool_name" (.s toolA.name)) k = lookupKey bodyResult.metadata k) ∧
    (∀ v, executeTool {} toolA (fun _ => ⟨2, .returns (.inr v)⟩) none true
        [("message", .s "hi")] =
      .ok (ToolResult.mkSuccess v
        [("execution_time", .f 2), ("tool_name", .s toolA.name)]))) :=
  ⟨⟨fun _ => rfl, by norm_num [effectiveTimeout, ExecutorConfig.defaultTimeout]⟩,
   result_normalization {} toolA none true [("message", .s "hi")] 2 bodyResult
     (fun _ => rfl)
     (by norm_num [effectiveTimeout, ExecutorConfig.defaultTimeout])⟩

/-! ## C2 -/

/-- C2 counterexample: a capability body that raises
`ToolExecutionError("boom")` during dispatch has its exception
re-raised to the executor's caller instead of being converted into an
Error-status outcome — refuting the claim that no body-raised
exception ever propagates. -/
theorem body_exception_propagates_counterexample :
    executeTool {} toolA
        (fun _ => ⟨0, .raises (.toolExecutionErr "boom" none)⟩) none true
        [("message", .s "hi")] =
      .error (.toolExecutionErr "boom" none) := rfl

/-- C2 (amended): any body-raised exception that is not in the
`ToolExecutionError` family is caught and converted into an
Error-status outcome whose message includes the exception's kind and
text and whose metadata records `exception_type`, never propagating;
a body-raised `ToolExecutionError` (or subclass: `ToolValidationError`,
`ToolTimeoutError`, `ToolNotFoundError`, `ToolRegistrationError`) is
re-raised to the caller. -/
theorem exception_containment_amended (cfg : ExecutorConfig) (tool : RegTool)
    (timeout : Option Rat) (vp : Bool) (args : List (String × JValue))
    (dur : Rat) (ty txt : String)
    (hval : vp = true → validateParameters tool args = none)
    (hdl : dur ≤ effectiveTimeout cfg timeout) :
    (executeTool cfg tool (fun _ => ⟨dur, .raises (.otherExc ty txt)⟩) timeout
        vp args =
      .ok (ToolResult.mkError
        ("Tool '" ++ tool.name ++ "' execution failed: " ++ ty ++ ": " ++ txt)
        [("execution_time", .f dur), ("tool_name", .s tool.name),
         ("exception_type", .s ty)])) ∧
    (∀ e : PyExc, isToolExecutionFamily e = true →
      executeTool cfg tool (fun _ => ⟨dur, .raises e⟩) timeout vp args =
        .error e) := by
  have hv : (if vp then validateParameters tool args else none) = none := by
    cases vp
    · rfl
    · exact hval rfl
  have hlt : ¬ (effectiveTimeout cfg timeout < dur) := not_lt.mpr hdl
  refine ⟨?_, ?_⟩
  · rw [executeTool_eq_executeSync]
    simp only [executeSync, hv, hlt, if_false, isToolExecutionFamily,
      excTypeName, excText]
    rfl
  · intro e he
    rw [executeTool_eq_executeSync]
    simp only [executeSync, hv, hlt, if_false, he, if_true]

/-- C2 witness: containment of a concrete `ValueError` raised by the
body, and propagation of a concrete `ToolExecutionError`. -/
theorem exception_containment_amended_witness :
    ((true = true → validateParameters toolA [("message", .s "hi")] = none) ∧
      (0 : Rat) ≤ effectiveTimeout {} none) ∧
    ((executeTool {} toolA
        (fun _ => ⟨0, .raises (.otherExc "ValueError" "bad value")⟩) none true
        [("message", .s "hi")] =
      .ok (ToolResult.mkError
        ("Tool '" ++ toolA.name ++ "' execution failed: ValueError: bad value")
        [("execution_time", .f 0), ("tool_name", .s toolA.name),
         ("exception_type", .s "ValueError")])) ∧
    (∀ e : PyExc, isToolExecutionFamily e = true →
      executeTool {} toolA (fun _ => ⟨0, .raises e⟩) none true
        [("message", .s "hi")] = .error e)) :=
  ⟨⟨fun _ => rfl, by norm_num [effectiveTimeout, ExecutorConfig.defaultTimeout]⟩,
   exception_containment_amended {} toolA none true [("message", .s "hi")] 0
     "ValueError" "bad value" (fun _ => rfl)
     (by norm_num [effectiveTimeout, ExecutorConfig.defaultTimeout])⟩

/-! ## C1 -/

/-- The `slow` capability definition of the spec scenario: declared
timeout 1.0s, synchronous handler. -/
def slowDef : ToolDefinition :=
  ⟨"slow", "sleeps five seconds", emptySchema, "m.sleep5", some 1, false⟩

/-- The importable world for the `slow` scenario. -/
def envSlow : PyEnv := [("m", [("sleep5", true)])]

/-- The `slow` capability body: runs for 5 seconds, then returns. -/
def slowBody : Body := fun _ => ⟨5, .returns (.inr .null)⟩

/-- C1: evaluation of the code at the spec's `slow` scenario.  A
capability registered from a definition with declared timeout 1.0s,
whose body runs 5s, executed with no caller override under the
executor default of 60s, completes successfully after 5s — the
executor's effective timeout is the caller override if given, else the
executor-wide default; the capability's declared timeout is never
consulted (the wrapped tool does not even expose it). -/
theorem declared_timeout_not_consulted :
    (registerFromDefinition envSlow RegistryState.empty slowDef false).2 =
      none ∧
    getTool (registerFromDefinition envSlow RegistryState.empty slowDef
        false).1 "slow" =
      .ok (createToolFromHandler slowDef ("m", "sleep5")) ∧
    effectiveTimeout { defaultTimeout := 60, maxWorkers := 4 } none = 60 ∧
    executeTool { defaultTimeout := 60, maxWorkers := 4 }
        (createToolFromHandler slowDef ("m", "sleep5")) slowBody none true [] =
      .ok (ToolResult.mkSuccess .null
        [("execution_time", .f 5), ("tool_name", .s "slow")]) :=
  ⟨rfl, rfl, rfl, rfl⟩

/-! ## C5 -/

/-- C5 counterexample: with arguments that satisfy the schema, a
capability body that itself raises `ToolValidationError` makes
`execute` fail with a `ValidationError` — refuting the claim that
satisfying arguments mean `execute` never fails with
`ValidationError`. -/
theorem validation_error_from_body_counterexample :
    SatisfiesSchema toolA.parameters [("message", .s "hi")] ∧
    executeTool {} toolA
        (fun _ => ⟨0, .raises (.toolValidationErr "fake" none)⟩) none true
        [("message", .s "hi")] =
      .error (.toolValidationErr "fake" none) :=
  ⟨(jsonschemaCheck_eq_none_iff toolA.parameters [("message", .s "hi")]).1 rfl,
   rfl⟩

/-- C5 (amended): with validation enabled, arguments satisfying the
schema never produce a `ValidationError` from the validation step —
`execute` can fail with `ValidationError` only when the capability
body itself raises one, which the executor re-raises; arguments
violating a required-field or type constraint always fail with a
`ValidationError` naming the capability and the failing schema path,
and the capability body is never invoked (the outcome is the same for
every body). -/
theorem validation_gate_amended (cfg : ExecutorConfig) (tool : RegTool)
    (body : Body) (timeout : Option Rat) (args : List (String × JValue)) :
    (SatisfiesSchema tool.parameters args →
      (∀ msg tn, (body args).outcome ≠ .raises (.toolValidationErr msg tn)) →
      ∀ msg tn, executeTool cfg tool body timeout true args ≠
        .error (.toolValidationErr msg tn)) ∧
    (ViolatesSchema tool.parameters args →
      (∃ e : SchemaErr, jsonschemaCheck tool.parameters args = some e ∧
        executeTool cfg tool body timeout true args =
          .error (.toolValidationErr
            ("Parameter validation failed for tool '" ++ tool.name ++ "' at "
              ++ (match e.path with
                  | [] => "root"
                  | ps => String.intercalate " -> " ps)
              ++ ": " ++ e.message) (some tool.name))) ∧
      (∀ body' : Body, executeTool cfg tool body timeout true args =
        executeTool cfg tool body' timeout true args)) := by
  constructor
  · intro hsat hbody msg tn hcontra
    have hv : validateParameters tool args = none := by
      unfold validateParameters
      rw [(jsonschemaCheck_eq_none_iff tool.parameters args).2 hsat]
    rw [executeTool_eq_executeSync] at hcontra
    simp only [executeSync, if_true, hv] at hcontra
    by_cases ht : effectiveTimeout cfg timeout < (body args).duration
    · rw [if_pos ht] at hcontra
      simp at hcontra
    · rw [if_neg ht] at hcontra
      cases ho : (body args).outcome with
      | raises e =>
        rw [ho] at hcontra
        cases e with
        | toolValidationErr m n => exact hbody m n ho
        | toolTimeoutErr m n =>
          simp only [isToolExecutionFamily, if_true] at hcontra
          cases hcontra
        | toolNotFoundErr m n =>
          simp only [isToolExecutionFamily, if_true] at hcontra
          cases hcontra
        | toolRegistrationErr m n =>
          simp only [isToolExecutionFamily, if_true] at hcontra
          cases hcontra
        | toolExecutionErr m n =>
          simp only [isToolExecutionFamily, if_true] at hcontra
          cases hcontra
        | otherExc a b =>
          simp only [isToolExecutionFamily, Bool.false_eq_true, if_false]
            at hcontra
          cases hcontra
      | returns r =>
        rw [ho] at hcontra
        cases r with
        | inl r0 => cases hcontra
        | inr v0 => cases hcontra
  · intro hviol
    have hne : jsonschemaCheck tool.parameters args ≠ none := by
      intro hc
      exact (violates_iff_not_satisfies _ _).1 hviol
        ((jsonschemaCheck_eq_none_iff _ _).1 hc)
    obtain ⟨e, he⟩ : ∃ e, jsonschemaCheck tool.parameters args = some e := by
      cases hc : jsonschemaCheck tool.parameters args with
      | none => exact absurd hc hne
      | some e => exact ⟨e, rfl⟩
    have hv : validateParameters tool args =
        some (.toolValidationErr
          ("Parameter validation failed for tool '" ++ tool.name ++ "' at "
            ++ (match e.path with
                | [] => "root"
                | ps => String.intercalate " -> " ps)
            ++ ": " ++ e.message) (some tool.name)) := by
      unfold validateParameters
      rw [he]
    refine ⟨⟨e, he, ?_⟩, ?_⟩
    · rw [executeTool_eq_executeSync]
      simp only [executeSync, if_true, hv]
    · intro body'
      rw [executeTool_eq_executeSync, executeTool_eq_executeSync]
      simp only [executeSync, if_true, hv]

/-- A body that immediately returns `None`. -/
def trivialBody : Body := fun _ => ⟨0, .returns (.inr .null)⟩

/-- C5 witness: the violating side at a concrete call missing the
required `message` field. -/
theorem validation_gate_amended_witness :
    ViolatesSchema toolA.parameters [] ∧
    ((∃ e : SchemaErr, jsonschemaCheck toolA.parameters [] = some e ∧
      executeTool {} toolA trivialBody none true [] =
        .error (.toolValidationErr
          ("Parameter validation failed for tool '" ++ toolA.name ++ "' at "
            ++ (match e.path with
                | [] => "root"
                | ps => String.intercalate " -> " ps)
            ++ ": " ++ e.message) (some toolA.name))) ∧
    (∀ body' : Body, executeTool {} toolA trivialBody none true [] =
      executeTool {} toolA body' none true [])) :=
  ⟨Or.inl ⟨"message", List.mem_singleton.mpr rfl, rfl⟩,
   (validation_gate_amended {} toolA trivialBody none []).2
     (Or.inl ⟨"message", List.mem_singleton.mpr rfl, rfl⟩)⟩

/-! ## C6 -/

theorem hasTool_of_getTool_ok (reg : RegistryState) (n : String)
    (tool : RegTool) (h : getTool reg n = .ok tool) : hasTool reg n = true := by
  unfold getTool at h
  unfold hasTool hasKey
  cases hl : lookupKey reg.tools n with
  | none => rw [hl] at h; cases h
  | some t => rfl

theorem executeSingleToolCall_id (cfg : ExecutorConfig)
    (bodyOf : RegTool → Body) (reg : RegistryState) (call : ToolCall) :
    (executeSingleToolCall cfg bodyOf reg call).toolUseId = call.id := by
  by_cases hhas : hasTool reg call.name
  · cases hget : getTool reg call.name with
    | error e =>
      cases e <;> simp [executeSingleToolCall, hhas, hget]
    | ok tool =>
      cases hex : executeTool cfg tool (bodyOf tool) none true call.input with
      | error e => cases e <;> simp [executeSingleToolCall, hhas, hget, hex]
      | ok r =>
        by_cases hs : r.isSuccess <;>
          simp [executeSingleToolCall, hhas, hget, hex, hs]
  · simp only [Bool.not_eq_true] at hhas
    simp [executeSingleToolCall, hhas]

/-- C6: the orchestrator's single-call boundary.  When the requested
name is not registered it returns an error-flagged `CallResult` naming
the missing capability, without consulting the executor (the result is
the same for every executor configuration and every body environment);
when the executor raises any exception, the orchestrator converts it
into an error-flagged `CallResult` describing the failure kind and
message — `Tool not found:` for a `ToolNotFoundError`, otherwise
`Execution error:` with the exception's type name and text — and the
result always echoes the request id.  The orchestrator itself is a
total function into `CallResult`s: every exception path of the `try`
block is caught. -/
theorem orchestrator_never_raises (cfg : ExecutorConfig)
    (bodyOf : RegTool → Body) (reg : RegistryState) (call : ToolCall) :
    (hasTool reg call.name = false →
      executeSingleToolCall cfg bodyOf reg call =
        ⟨call.id, "Error: Tool '" ++ call.name ++ "' not found in registry",
         true⟩ ∧
      ∀ (cfg' : ExecutorConfig) (bodyOf' : RegTool → Body),
        executeSingleToolCall cfg bodyOf reg call =
          executeSingleToolCall cfg' bodyOf' reg call) ∧
    (∀ tool e, getTool reg call.name = .ok tool →
      executeTool cfg tool (bodyOf tool) none true call.input = .error e →
      executeSingleToolCall cfg bodyOf reg call =
        ⟨call.id,
         (match e with
          | .toolNotFoundErr msg _ => "Tool not found: " ++ msg
          | e => "Execution error: " ++ excTypeName e ++ ": " ++ excText e),
         true⟩) ∧
    (executeSingleToolCall cfg bodyOf reg call).toolUseId = call.id := by
  refine ⟨?_, ?_, executeSingleToolCall_id cfg bodyOf reg call⟩
  · intro hhas
    constructor
    · simp [executeSingleToolCall, hhas]
    · intro cfg' bodyOf'
      simp [executeSingleToolCall, hhas]
  · intro tool e hget hex
    have hhas := hasTool_of_getTool_ok reg call.name tool hget
    cases e <;> simp [executeSingleToolCall, hhas, hget, hex]

/-- A call to a name that is not registered. -/
def ghostCall : ToolCall := ⟨"call-1", "ghost", []⟩

/-- C6 witness: the boundary behaviour at a concrete unregistered
call. -/
theorem orchestrator_never_raises_witness :
    hasTool RegistryState.empty ghostCall.name = false ∧
    ((executeSingleToolCall {} (fun _ => trivialBody) RegistryState.empty
        ghostCall =
      ⟨ghostCall.id,
       "Error: Tool '" ++ ghostCall.name ++ "' not found in registry",
       true⟩ ∧
    ∀ (cfg' : ExecutorConfig) (bodyOf' : RegTool → Body),
      executeSingleToolCall {} (fun _ => trivialBody) RegistryState.empty
          ghostCall =
        executeSingleToolCall cfg' bodyOf' RegistryState.empty ghostCall) ∧
    (executeSingleToolCall {} (fun _ => trivialBody) RegistryState.empty
      ghostCall).toolUseId = ghostCall.id) :=
  ⟨by decide,
   (orchestrator_never_raises {} (fun _ => trivialBody) RegistryState.empty
       ghostCall).1 (by decide),
   (orchestrator_never_raises {} (fun _ => trivialBody) RegistryState.empty
       ghostCall).2.2⟩

/-! ## C7 -/

/-- C7: `executeBatch` returns exactly one result per request, in
input order — the result list is the pointwise image of the request
list under the single-call orchestrator, so each request is processed
independently of the others' outcomes — and the result at every index
echoes the id of the request at the same index. -/
theorem batch_results_ordered (cfg : ExecutorConfig)
    (bodyOf : RegTool → Body) (reg : RegistryState) (calls : List ToolCall) :
    executeToolCalls cfg bodyOf reg calls =
      calls.map (executeSingleToolCall cfg bodyOf reg) ∧
    (executeToolCalls cfg bodyOf reg calls).length = calls.length ∧
    ∀ (i : Nat) (h1 : i < (executeToolCalls cfg bodyOf reg calls).length)
      (h2 : i < calls.length),
      ((executeToolCalls cfg bodyOf reg calls).get ⟨i, h1⟩).toolUseId =
        (calls.get ⟨i, h2⟩).id := by
  have hmap : ∀ cs : List ToolCall,
      executeToolCalls cfg bodyOf reg cs =
        cs.map (executeSingleToolCall cfg bodyOf reg) := by
    intro cs
    induction cs with
    | nil => rfl
    | cons c rest ih => simp [executeToolCalls, ih]
  refine ⟨hmap calls, by rw [hmap calls]; simp, ?_⟩
  intro i h1 h2
  simp only [List.get_eq_getElem]
  rw [List.getElem_of_eq (hmap calls) h1]
  simp only [List.getElem_map]
  exact executeSingleToolCall_id cfg bodyOf reg _

/-- C7 witness: batch behaviour at a concrete one-request batch. -/
theorem batch_results_ordered_witness :
    (0 < (executeToolCalls {} (fun _ => trivialBody) RegistryState.empty
        [ghostCall]).length ∧
      0 < ([ghostCall] : List ToolCall).length) ∧
    (executeToolCalls {} (fun _ => trivialBody) RegistryState.empty
        [ghostCall]).length = ([ghostCall] : List ToolCall).length ∧
    ((executeToolCalls {} (fun _ => trivialBody) RegistryState.empty
        [ghostCall]).get ⟨0, by decide⟩).toolUseId =
      (([ghostCall] : List ToolCall).get ⟨0, by decide⟩).id :=
  ⟨⟨by decide, by decide⟩,
   (batch_results_ordered {} (fun _ => trivialBody) RegistryState.empty
       [ghostCall]).2.1,
   (batch_results_ordered {} (fun _ => trivialBody) RegistryState.empty
       [ghostCall]).2.2 0 (by decide) (by decide)⟩

end Sisyphus
